import Mathlib

/-!
Shallow embedding of the netsync block keeper (src/netsync/block_keeper.go).

The chain collaborator (Height, ProcessBlock, ValidateTx), the peer
registry (BestPeer, requestBlockByHeight, DropPeer, MarkTransaction) and
the switch (AddScamPeer) are external per spec §6; their answers are
supplied by explicit environment traces, and their observable side
effects (peer drop, scam report, transaction marking) are recorded in
the outputs.  Machine integers (uint64) are Nat taken modulo 2^64.
-/

namespace Netsync

/-- Modulus of uint64 arithmetic: 2^64. -/
def W : Nat := 18446744073709551616

/-- A block: its Height field plus an abstract residue for the rest of
the content (header, transactions), enough to tell blocks apart. -/
structure Block where
  height : Nat
  body : Nat
deriving DecidableEq, Repr

/-- The three error values BlockRequest can return: errReqBlock,
errGetBlockTimeout, errPeerDropped (block_keeper.go lines 28-34). -/
inductive BRErr where
  | reqBlock
  | getBlockTimeout
  | peerDropped
deriving DecidableEq, Repr

/-- One event observed by the select loop of BlockRequest
(block_keeper.go lines 135-157): a pendingResponse arriving on
pendingProcessCh, a retryTicker tick (carrying whether the re-dispatch
via blockRequest succeeds), the syncWait timer firing, or a peer id
arriving on quitReqBlockCh. -/
inductive BREvent where
  | pending (block : Block) (peerID : String)
  | retry (dispatchOk : Bool)
  | timeout
  | quit (peerID : String)
deriving DecidableEq, Repr

/-- The select loop of BlockRequest (block_keeper.go lines 134-157),
consuming a linearised list of events.  Result none means the loop is
still blocked waiting when the event list runs out; some (blk, err)
mirrors the Go return pair (*types.Block, error). -/
def blockRequestLoop (peerID : String) (height : Nat) :
    List BREvent → Option (Option Block × Option BRErr)
  | [] => none
  | BREvent.pending b pid :: rest =>
    if pid ≠ peerID then blockRequestLoop peerID height rest
    else if b.height ≠ height then blockRequestLoop peerID height rest
    else some (some b, none)
  | BREvent.retry ok :: rest =>
    if ok then blockRequestLoop peerID height rest
    else some (none, some BRErr.reqBlock)
  | BREvent.timeout :: _ => some (none, some BRErr.getBlockTimeout)
  | BREvent.quit pid :: rest =>
    if pid = peerID then some (none, some BRErr.peerDropped)
    else blockRequestLoop peerID height rest

/-- BlockRequest (block_keeper.go lines 123-158): the initial dispatch
via blockRequest (whose success is the dispatchOk flag), then the wait
loop over the events. -/
def BlockRequest (peerID : String) (height : Nat) (dispatchOk : Bool)
    (events : List BREvent) : Option (Option Block × Option BRErr) :=
  if dispatchOk then blockRequestLoop peerID height events
  else some (none, some BRErr.reqBlock)

/-- The two errors BlockRequestWorker can return: errCommAbnorm and
errScamPeer (block_keeper.go lines 30-31). -/
inductive WErr where
  | commAbnorm
  | scamPeer
deriving DecidableEq, Repr

/-- Environment answers for one iteration of the BlockRequestWorker
loop: the dispatch outcome and event list consumed by the BlockRequest
call, and the chain collaborator's answer to ProcessBlock on the
fetched block (isOrphan, error) together with the chain height read
back by chain.Height() after processing. -/
structure IterEnv where
  dispatchOk : Bool
  events : List BREvent
  isOrphan : Bool
  perr : Option Nat
  newHeight : Nat
deriving DecidableEq, Repr

/-- Outcome of one iteration of the BlockRequestWorker loop body:
blocked forever inside BlockRequest, a return from the function
(recording whether DropPeer and AddScamPeer were called), or
continuing the loop with a new cursor and chain height. -/
inductive IterOut where
  | blocked
  | stop (result : Option WErr) (dropped : Bool) (scammed : Bool)
  | next (cursor : Nat) (chainHeight : Nat)
deriving DecidableEq, Repr

/-- uint64 decrement num-- as in Go: wraps at 0. -/
def decW (n : Nat) : Nat := (n + (W - 1)) % W

/-- One iteration of the BlockRequestWorker loop body
(block_keeper.go lines 97-116): call BlockRequest at the cursor num;
if the error is errPeerDropped, errGetBlockTimeout or errReqBlock,
DropPeer and return errCommAbnorm; otherwise ProcessBlock: on error
AddScamPeer and return errScamPeer; if orphan, num-- and continue;
otherwise set num to chain.Height()+1 and continue. -/
def workerIter (peerID : String) (num chainHeight : Nat) (env : IterEnv) : IterOut :=
  match BlockRequest peerID num env.dispatchOk env.events with
  | none => IterOut.blocked
  | some (_, err) =>
    if err = some BRErr.peerDropped ∨ err = some BRErr.getBlockTimeout ∨
        err = some BRErr.reqBlock then
      IterOut.stop (some WErr.commAbnorm) true false
    else
      match env.perr with
      | some _ => IterOut.stop (some WErr.scamPeer) false true
      | none =>
        if env.isOrphan then IterOut.next (decW num) chainHeight
        else IterOut.next ((env.newHeight + 1) % W) env.newHeight

/-- Observable outcome of a terminated BlockRequestWorker call: the
returned error (none is the nil return), the chain height when it
returned, whether DropPeer and AddScamPeer were called, and the ghost
list of cursor values at each test of the loop condition. -/
structure WOut where
  result : Option WErr
  finalHeight : Nat
  dropped : Bool
  scammed : Bool
  cursors : List Nat
deriving DecidableEq, Repr

/-- The loop of BlockRequestWorker over the environment trace; none
means the trace ran out (or BlockRequest blocked) with the loop still
running.  The cursors field records num at every loop-condition test,
including the failing one. -/
def workerAux (peerID : String) (maxPeerHeight : Nat) :
    Nat → Nat → List IterEnv → Option WOut
  | num, chainHeight, [] =>
    if num ≤ maxPeerHeight then none
    else some ⟨none, chainHeight, false, false, [num]⟩
  | num, chainHeight, env :: rest =>
    if num ≤ maxPeerHeight then
      match workerIter peerID num chainHeight env with
      | IterOut.blocked => none
      | IterOut.stop r d s => some ⟨r, chainHeight, d, s, [num]⟩
      | IterOut.next num2 chainHeight2 =>
        (workerAux peerID maxPeerHeight num2 chainHeight2 rest).map
          fun out => { out with cursors := num :: out.cursors }
    else some ⟨none, chainHeight, false, false, [num]⟩

/-- BlockRequestWorker (block_keeper.go lines 93-117): read
chainHeight from the chain, start the loop at num = chainHeight+1. -/
def BlockRequestWorker (peerID : String) (maxPeerHeight chainHeight : Nat)
    (trace : List IterEnv) : Option WOut :=
  workerAux peerID maxPeerHeight ((chainHeight + 1) % W) chainHeight trace

/-- IsCaughtUp (block_keeper.go lines 86-91): returns
chain.Height() < height where height is the best peer's height. -/
def IsCaughtUp (chainHeight bestPeerHeight : Nat) : Bool :=
  decide (chainHeight < bestPeerHeight)

/-- A transaction: its ID. -/
structure Tx where
  id : Nat
deriving DecidableEq, Repr

/-- txsNotify (block_keeper.go lines 46-49). -/
structure txsNotify where
  tx : Tx
  peerID : String
deriving DecidableEq, Repr

/-- Observable side effects of the transaction ingestion worker:
MarkTransaction on the peer set and AddScamPeer on the switch. -/
inductive TxEffect where
  | mark (peerID : String) (txID : Nat)
  | scam (peerID : String)
deriving DecidableEq, Repr

/-- txsProcessWorker (block_keeper.go lines 161-170): drain the
notification queue until it is closed; for each item MarkTransaction,
then ValidateTx (whose answer isOrphan, verr is carried with the
item), and AddScamPeer exactly when verr is non-nil and isOrphan is
false. -/
def txsProcessWorker : List (txsNotify × Bool × Option Nat) → List TxEffect
  | [] => []
  | (n, isOrphan, verr) :: rest =>
    TxEffect.mark n.peerID n.tx.id ::
      (if verr.isSome && !isOrphan then
        TxEffect.scam n.peerID :: txsProcessWorker rest
      else txsProcessWorker rest)

/-- An event the wait loop of BlockRequest passes over without
returning: a pendingResponse from another peer or with the wrong
height, a retry tick whose re-dispatch succeeds, or a quit signal
naming another peer. -/
def inertB (peerID : String) (height : Nat) : BREvent → Bool
  | BREvent.pending b pid => !(pid == peerID && b.height == height)
  | BREvent.retry ok => ok
  | BREvent.timeout => false
  | BREvent.quit pid => !(pid == peerID)

theorem blockRequestLoop_skip (peerID : String) (height : Nat) (e : BREvent)
    (rest : List BREvent) (h : inertB peerID height e = true) :
    blockRequestLoop peerID height (e :: rest) = blockRequestLoop peerID height rest := by
  cases e with
  | pending b pid =>
    by_cases h1 : pid = peerID
    · by_cases h2 : b.height = height
      · exfalso
        simp [inertB, h1, h2] at h
      · simp [blockRequestLoop, h1, h2]
    · simp [blockRequestLoop, h1]
  | retry ok =>
    simp only [inertB] at h
    simp [blockRequestLoop, h]
  | timeout => simp [inertB] at h
  | quit pid =>
    simp only [inertB, Bool.not_eq_true', beq_eq_false_iff_ne, ne_eq] at h
    simp [blockRequestLoop, h]

theorem blockRequestLoop_append_inert (peerID : String) (height : Nat)
    (pre evs : List BREvent) (h : ∀ e ∈ pre, inertB peerID height e = true) :
    blockRequestLoop peerID height (pre ++ evs) = blockRequestLoop peerID height evs := by
  induction pre with
  | nil => rfl
  | cons e pre ih =>
    rw [List.cons_append, blockRequestLoop_skip peerID height e _ (h e (by simp))]
    exact ih fun x hx => h x (by simp [hx])

theorem blockRequestLoop_classify (peerID : String) (height : Nat)
    (evs : List BREvent) (blk : Option Block) (err : Option BRErr)
    (h : blockRequestLoop peerID height evs = some (blk, err)) :
    (err = none ∧ ∃ b, blk = some b ∧ b.height = height ∧
        BREvent.pending b peerID ∈ evs) ∨
    (blk = none ∧ (err = some BRErr.reqBlock ∨ err = some BRErr.getBlockTimeout ∨
        err = some BRErr.peerDropped)) := by
  induction evs with
  | nil => simp [blockRequestLoop] at h
  | cons e rest ih =>
    cases e with
    | pending b pid =>
      by_cases h1 : pid = peerID
      · by_cases h2 : b.height = height
        · simp only [blockRequestLoop, h1, h2, ne_eq, not_true_eq_false, if_false,
            Option.some.injEq, Prod.mk.injEq] at h
          exact Or.inl ⟨h.2.symm, b, h.1.symm, h2, by simp [h1]⟩
        · rw [blockRequestLoop_skip peerID height _ rest (by simp [inertB, h2])] at h
          rcases ih h with ⟨he, b2, hb2, hh2, hm⟩ | hr
          · exact Or.inl ⟨he, b2, hb2, hh2, List.mem_cons_of_mem _ hm⟩
          · exact Or.inr hr
      · rw [blockRequestLoop_skip peerID height _ rest (by simp [inertB, h1])] at h
        rcases ih h with ⟨he, b2, hb2, hh2, hm⟩ | hr
        · exact Or.inl ⟨he, b2, hb2, hh2, List.mem_cons_of_mem _ hm⟩
        · exact Or.inr hr
    | retry ok =>
      cases ok with
      | true =>
        rw [blockRequestLoop_skip peerID height _ rest (by simp [inertB])] at h
        rcases ih h with ⟨he, b2, hb2, hh2, hm⟩ | hr
        · exact Or.inl ⟨he, b2, hb2, hh2, List.mem_cons_of_mem _ hm⟩
        · exact Or.inr hr
      | false =>
        simp only [blockRequestLoop, Bool.false_eq_true, if_false, Option.some.injEq,
          Prod.mk.injEq] at h
        exact Or.inr ⟨h.1.symm, Or.inl h.2.symm⟩
    | timeout =>
      simp only [blockRequestLoop, Option.some.injEq, Prod.mk.injEq] at h
      exact Or.inr ⟨h.1.symm, Or.inr (Or.inl h.2.symm)⟩
    | quit pid =>
      by_cases h1 : pid = peerID
      · simp only [blockRequestLoop, h1, if_true, Option.some.injEq, Prod.mk.injEq] at h
        exact Or.inr ⟨h.1.symm, Or.inr (Or.inr h.2.symm)⟩
      · rw [blockRequestLoop_skip peerID height _ rest (by simp [inertB, h1])] at h
        rcases ih h with ⟨he, b2, hb2, hh2, hm⟩ | hr
        · exact Or.inl ⟨he, b2, hb2, hh2, List.mem_cons_of_mem _ hm⟩
        · exact Or.inr hr

theorem BlockRequest_classify (peerID : String) (height : Nat) (dispatchOk : Bool)
    (evs : List BREvent) (blk : Option Block) (err : Option BRErr)
    (h : BlockRequest peerID height dispatchOk evs = some (blk, err)) :
    (err = none ∧ ∃ b, blk = some b ∧ b.height = height ∧
        BREvent.pending b peerID ∈ evs) ∨
    (blk = none ∧ (err = some BRErr.reqBlock ∨ err = some BRErr.getBlockTimeout ∨
        err = some BRErr.peerDropped)) := by
  unfold BlockRequest at h
  cases dispatchOk with
  | true => exact blockRequestLoop_classify peerID height evs blk err (by simpa using h)
  | false =>
    simp only [Bool.false_eq_true, if_false, Option.some.injEq, Prod.mk.injEq] at h
    exact Or.inr ⟨h.1.symm, Or.inl h.2.symm⟩

theorem workerAux_exit (peerID : String) (maxPeerHeight num chainHeight : Nat)
    (trace : List IterEnv) (h : maxPeerHeight < num) :
    workerAux peerID maxPeerHeight num chainHeight trace =
      some ⟨none, chainHeight, false, false, [num]⟩ := by
  cases trace <;> simp [workerAux, Nat.not_le.mpr h]

theorem workerAux_step_stop (peerID : String) (maxPeerHeight num chainHeight : Nat)
    (env : IterEnv) (rest : List IterEnv) (r : Option WErr) (d s : Bool)
    (hle : num ≤ maxPeerHeight)
    (hit : workerIter peerID num chainHeight env = IterOut.stop r d s) :
    workerAux peerID maxPeerHeight num chainHeight (env :: rest) =
      some ⟨r, chainHeight, d, s, [num]⟩ := by
  simp [workerAux, hle, hit]

theorem workerAux_step_next (peerID : String) (maxPeerHeight num chainHeight : Nat)
    (env : IterEnv) (rest : List IterEnv) (num2 chainHeight2 : Nat)
    (hle : num ≤ maxPeerHeight)
    (hit : workerIter peerID num chainHeight env = IterOut.next num2 chainHeight2) :
    workerAux peerID maxPeerHeight num chainHeight (env :: rest) =
      (workerAux peerID maxPeerHeight num2 chainHeight2 rest).map
        fun out => { out with cursors := num :: out.cursors } := by
  simp [workerAux, hle, hit]

theorem decW_of_pos (n : Nat) (h1 : 1 ≤ n) (h2 : n < W) : decW n = n - 1 := by
  unfold decW W at *
  omega

theorem decW_zero : decW 0 = W - 1 := by decide

/-- Claim C1 (code bug): the claim says IsCaughtUp returns true iff
localHeight >= bestPeerHeight, matching the function's name; the code
returns chain.Height() < height, the exact inversion.  Evaluated at
the failing inputs: behind by two the code says caught up, ahead by
two or exactly level the code says not caught up. -/
theorem C1_isCaughtUp_inverted :
    IsCaughtUp 10 12 = true ∧ ¬(10 ≥ 12) ∧
    IsCaughtUp 12 10 = false ∧ 12 ≥ 10 ∧
    IsCaughtUp 10 10 = false ∧ 10 ≥ 10 := by decide

/-- Claim C3 (confirmed): when the consumed pending-response sequence
holds exactly one item matching the requested peer and height, every
non-matching item (wrong peer or wrong height, any order) is skipped
without failing and the matching item's block is returned with nil
error. -/
theorem C3_unique_match (peerID : String) (height : Nat)
    (pre : List (Block × String)) (b : Block) (post : List BREvent)
    (hpre : ∀ p ∈ pre, ¬(p.2 = peerID ∧ p.1.height = height))
    (hb : b.height = height) :
    BlockRequest peerID height true
        (pre.map (fun p => BREvent.pending p.1 p.2) ++
          BREvent.pending b peerID :: post) =
      some (some b, none) := by
  unfold BlockRequest
  rw [if_pos rfl, blockRequestLoop_append_inert]
  · simp [blockRequestLoop, hb]
  · intro e he
    obtain ⟨p, hp, rfl⟩ := List.mem_map.mp he
    have := hpre p hp
    simp only [inertB, Bool.not_eq_true, Bool.and_eq_true, beq_iff_eq]
    by_cases h1 : p.2 = peerID
    · by_cases h2 : p.1.height = height
      · exact absurd ⟨h1, h2⟩ this
      · simp [h2]
    · simp [h1]

/-- Witness for C3 at a concrete input: two non-matching items (one
wrong peer, one wrong height) precede the single match. -/
theorem C3_unique_match_witness :
    BlockRequest "p" 5 true
        ([((⟨7, 1⟩ : Block), "q"), ((⟨3, 2⟩ : Block), "p")].map
            (fun p => BREvent.pending p.1 p.2) ++
          BREvent.pending (⟨5, 9⟩ : Block) "p" :: [BREvent.timeout]) =
      some (some ⟨5, 9⟩, none) :=
  C3_unique_match "p" 5 [(⟨7, 1⟩, "q"), (⟨3, 2⟩, "p")] ⟨5, 9⟩ [BREvent.timeout]
    (by decide) rfl

/-- Claim C4 (confirmed): failed initial dispatch and failed retry
re-dispatch give errReqBlock; the deadline firing gives
errGetBlockTimeout; a cancellation signal carrying the session's peer
gives errPeerDropped; a cancellation signal carrying a different peer
does not terminate the loop.  The decisive event may be preceded by
any inert events. -/
theorem C4_error_classification (peerID : String) (height : Nat) :
    (∀ evs, BlockRequest peerID height false evs =
      some (none, some BRErr.reqBlock)) ∧
    (∀ pre rest, (∀ e ∈ pre, inertB peerID height e = true) →
      BlockRequest peerID height true (pre ++ BREvent.retry false :: rest) =
          some (none, some BRErr.reqBlock) ∧
      BlockRequest peerID height true (pre ++ BREvent.timeout :: rest) =
          some (none, some BRErr.getBlockTimeout) ∧
      BlockRequest peerID height true (pre ++ BREvent.quit peerID :: rest) =
          some (none, some BRErr.peerDropped)) ∧
    (∀ pid rest, pid ≠ peerID →
      blockRequestLoop peerID height (BREvent.quit pid :: rest) =
        blockRequestLoop peerID height rest) := by
  refine ⟨fun evs => by simp [BlockRequest], fun pre rest hpre => ?_, fun pid rest hpid => ?_⟩
  · refine ⟨?_, ?_, ?_⟩ <;>
      · unfold BlockRequest
        rw [if_pos rfl, blockRequestLoop_append_inert peerID height pre _ hpre]
        simp [blockRequestLoop]
  · exact blockRequestLoop_skip peerID height _ rest (by simp [inertB, hpid])

/-- Witness for C4 at concrete inputs: a timeout after one mismatched
pending item, and a quit signal for a different peer being skipped. -/
theorem C4_error_classification_witness :
    BlockRequest "p" 5 true
        ([BREvent.pending ⟨9, 0⟩ "q"] ++ BREvent.timeout :: []) =
      some (none, some BRErr.getBlockTimeout) ∧
    blockRequestLoop "p" 5 (BREvent.quit "q" :: [BREvent.timeout]) =
      blockRequestLoop "p" 5 [BREvent.timeout] :=
  ⟨((C4_error_classification "p" 5).2.1 [BREvent.pending ⟨9, 0⟩ "q"] []
      (by decide)).2.1,
    (C4_error_classification "p" 5).2.2 "q" [BREvent.timeout] (by decide)⟩

/-- Claim C7 (confirmed): for each dequeued transaction notification
the ingestion worker first emits the mark-as-known effect for the
origin peer, then penalizes that peer exactly when validation errored
and the transaction is not an orphan, and in every case continues
with the remaining notifications; it exits only when the queue is
closed (the empty list), producing no further effects. -/
theorem C7_tx_worker (n : txsNotify) (isOrphan : Bool) (verr : Option Nat)
    (rest : List (txsNotify × Bool × Option Nat)) :
    txsProcessWorker ((n, isOrphan, verr) :: rest) =
      TxEffect.mark n.peerID n.tx.id ::
        ((if verr.isSome && !isOrphan then [TxEffect.scam n.peerID] else []) ++
          txsProcessWorker rest) ∧
    txsProcessWorker [] = [] := by
  refine ⟨?_, rfl⟩
  by_cases hc : (verr.isSome && !isOrphan) = true <;> simp [txsProcessWorker, hc]

/-- Counterexample to claim C2 as stated: a BlockRequestWorker run
starting at chain height 0 whose first two fetched blocks are both
classified as orphans.  The ghost cursor log is 1, 0, 2^64-1: the
orphan at cursor 0 moved the cursor to 2^64-1, an increase, not a
decrease by exactly one; the run then ends with the nil result. -/
theorem C2_counterexample :
    BlockRequestWorker "p" 5 0
        [⟨true, [BREvent.pending ⟨1, 0⟩ "p"], true, none, 0⟩,
          ⟨true, [BREvent.pending ⟨0, 0⟩ "p"], true, none, 0⟩] =
      some ⟨none, 0, false, false, [1, 0, 18446744073709551615]⟩ ∧
    0 < 18446744073709551615 := by
  constructor
  · rfl
  · decide

/-- Claim C2 (amended): whenever the loop body continues, after a
ProcessBlock that succeeds without orphan classification the cursor
equals the re-read chain height plus one modulo 2^64 (not the old
cursor plus one), and after an orphan classification at cursor c >= 1
the cursor becomes c - 1, while at cursor 0 the uint64 decrement
wraps to 2^64 - 1 instead of decreasing. -/
theorem C2_cursor_invariant (peerID : String) (num chainHeight : Nat)
    (env : IterEnv) (num2 chainHeight2 : Nat) (hw : num < W)
    (h : workerIter peerID num chainHeight env = IterOut.next num2 chainHeight2) :
    (env.isOrphan = false →
      chainHeight2 = env.newHeight ∧ num2 = (env.newHeight + 1) % W) ∧
    (env.isOrphan = true →
      chainHeight2 = chainHeight ∧ (1 ≤ num → num2 = num - 1) ∧
        (num = 0 → num2 = W - 1)) := by
  unfold workerIter at h
  cases hbr : BlockRequest peerID num env.dispatchOk env.events with
  | none => rw [hbr] at h; exact absurd h (by simp)
  | some res =>
    obtain ⟨blk, err⟩ := res
    simp only [hbr] at h
    by_cases hg : err = some BRErr.peerDropped ∨ err = some BRErr.getBlockTimeout ∨
        err = some BRErr.reqBlock
    · rw [if_pos hg] at h
      exact absurd h (by simp)
    · rw [if_neg hg] at h
      cases hp : env.perr with
      | some e => rw [hp] at h; exact absurd h (by simp)
      | none =>
        simp only [hp] at h
        by_cases ho : env.isOrphan = true
        · rw [if_pos ho] at h
          simp only [IterOut.next.injEq] at h
          refine ⟨fun hfo => absurd ho (by simp [hfo]), fun _ => ⟨h.2.symm, ?_, ?_⟩⟩
          · intro h1
            rw [← h.1, decW_of_pos num h1 hw]
          · intro h0
            rw [← h.1, h0, decW_zero]
        · rw [if_neg ho] at h
          simp only [IterOut.next.injEq] at h
          exact ⟨fun _ => ⟨h.2.symm, h.1.symm⟩, fun ht => absurd ht ho⟩

/-- Witness for the amended C2 at a concrete input: an orphan
classification at cursor 5 with chain height 4 moves the cursor to 4
and leaves the chain height alone. -/
theorem C2_cursor_invariant_witness :
    5 < W ∧
    workerIter "p" 5 4 ⟨true, [BREvent.pending ⟨5, 0⟩ "p"], true, none, 0⟩ =
      IterOut.next 4 4 ∧
    (4 : Nat) = 5 - 1 :=
  ⟨by decide, by decide,
    ((C2_cursor_invariant "p" 5 4 ⟨true, [BREvent.pending ⟨5, 0⟩ "p"], true, none, 0⟩ 4 4
      (by decide) (by decide)).2 rfl).2.1 (by decide)⟩

/-- Claim C5 (confirmed): whenever the BlockRequest call of an
iteration fails (with any of the three errors it can produce), the
driver drops the peer, returns errCommAbnorm at once, and the chain
height is untouched: the conclusion holds for every value of the
ProcessBlock oracle in the environment, i.e. ProcessBlock is never
consulted for the failed fetch. -/
theorem C5_comm_failure (peerID : String) (maxPeerHeight chainHeight : Nat)
    (env : IterEnv) (rest : List IterEnv) (blk : Option Block) (e : BRErr)
    (hle : (chainHeight + 1) % W ≤ maxPeerHeight)
    (hf : BlockRequest peerID ((chainHeight + 1) % W) env.dispatchOk env.events =
      some (blk, some e)) :
    BlockRequestWorker peerID maxPeerHeight chainHeight (env :: rest) =
      some ⟨some WErr.commAbnorm, chainHeight, true, false, [(chainHeight + 1) % W]⟩ := by
  unfold BlockRequestWorker
  refine workerAux_step_stop peerID maxPeerHeight _ chainHeight env rest _ _ _ hle ?_
  cases e <;> simp [workerIter, hf]

/-- Witness for C5, which is also the spec scenario: local height 10,
peer height 12, the dispatch of the request for block 11 fails; the
driver returns errCommAbnorm, the peer is dropped, the chain height
stays 10. -/
theorem C5_comm_failure_witness :
    BlockRequestWorker "p" 12 10 [⟨false, [], false, none, 0⟩] =
      some ⟨some WErr.commAbnorm, 10, true, false, [(10 + 1) % W]⟩ :=
  C5_comm_failure "p" 12 10 ⟨false, [], false, none, 0⟩ [] none BRErr.reqBlock
    (by decide) (by decide)

/-- Claim C6 (confirmed): when the fetch succeeded, a ProcessBlock
failure that is not an orphan classification reports the serving peer
as a scam peer and stops the driver with errScamPeer, while an orphan
classification alone neither penalizes nor stops: it only moves the
cursor back by one (uint64 decrement) and continues. -/
theorem C6_scam_vs_orphan (peerID : String) (num chainHeight : Nat)
    (env : IterEnv) (blk : Option Block)
    (hf : BlockRequest peerID num env.dispatchOk env.events = some (blk, none)) :
    (∀ e, env.perr = some e → env.isOrphan = false →
      workerIter peerID num chainHeight env =
        IterOut.stop (some WErr.scamPeer) false true) ∧
    (env.perr = none → env.isOrphan = true →
      workerIter peerID num chainHeight env = IterOut.next (decW num) chainHeight) := by
  constructor
  · intro e hp _
    simp [workerIter, hf, hp]
  · intro hp ho
    simp [workerIter, hf, hp, ho]

/-- Witness for C6 at a concrete input: a successfully fetched block
at height 5 whose processing fails without orphan classification
leads to the scam-peer stop. -/
theorem C6_scam_vs_orphan_witness :
    workerIter "p" 5 4 ⟨true, [BREvent.pending ⟨5, 0⟩ "p"], false, some 0, 0⟩ =
      IterOut.stop (some WErr.scamPeer) false true :=
  (C6_scam_vs_orphan "p" 5 4 ⟨true, [BREvent.pending ⟨5, 0⟩ "p"], false, some 0, 0⟩
    (some ⟨5, 0⟩) (by decide)).1 0 rfl rfl

theorem workerAux_step_blocked (peerID : String) (maxPeerHeight num chainHeight : Nat)
    (env : IterEnv) (rest : List IterEnv) (hle : num ≤ maxPeerHeight)
    (hit : workerIter peerID num chainHeight env = IterOut.blocked) :
    workerAux peerID maxPeerHeight num chainHeight (env :: rest) = none := by
  simp [workerAux, hle, hit]

/-- No BlockRequest against this environment, at any height, fails
with an error. -/
def fetchNoFail (peerID : String) (env : IterEnv) : Prop :=
  ∀ n blk e, BlockRequest peerID n env.dispatchOk env.events ≠ some (blk, some e)

/-- Claim C8 (confirmed): the worker returns the nil result the
moment the cursor exceeds maxPeerHeight, whatever the remaining trace
holds; when every fetch is failure-free and every ProcessBlock
answers success without orphan classification, any terminating run
returns nil with no peer dropped and no scam reported; and in the
spec scenario (local height 10, peer height 13, valid blocks 11, 12,
13 served in order) the run returns nil with final chain height 13. -/
theorem C8_success_run (peerID : String) (maxPeerHeight : Nat) :
    (∀ num chainHeight trace, maxPeerHeight < num →
      workerAux peerID maxPeerHeight num chainHeight trace =
        some ⟨none, chainHeight, false, false, [num]⟩) ∧
    (∀ trace num chainHeight out,
      (∀ env ∈ trace, fetchNoFail peerID env ∧ env.perr = none ∧ env.isOrphan = false) →
      workerAux peerID maxPeerHeight num chainHeight trace = some out →
      out.result = none ∧ out.dropped = false ∧ out.scammed = false) ∧
    BlockRequestWorker "p" 13 10
        [⟨true, [BREvent.pending ⟨11, 0⟩ "p"], false, none, 11⟩,
          ⟨true, [BREvent.pending ⟨12, 0⟩ "p"], false, none, 12⟩,
          ⟨true, [BREvent.pending ⟨13, 0⟩ "p"], false, none, 13⟩] =
      some ⟨none, 13, false, false, [11, 12, 13, 14]⟩ := by
  refine ⟨fun num chainH trace h => workerAux_exit peerID maxPeerHeight num chainH trace h,
    ?_, by rfl⟩
  intro trace
  induction trace with
  | nil =>
    intro num chainH out henv hw
    by_cases hle : num ≤ maxPeerHeight
    · rw [show workerAux peerID maxPeerHeight num chainH [] = none from by
        simp [workerAux, hle]] at hw
      exact absurd hw (by simp)
    · rw [workerAux_exit peerID maxPeerHeight num chainH [] (Nat.not_le.mp hle)] at hw
      rw [← Option.some.inj hw]
      exact ⟨rfl, rfl, rfl⟩
  | cons env rest ih =>
    intro num chainH out henv hw
    by_cases hle : num ≤ maxPeerHeight
    · have henv1 := henv env (List.mem_cons_self env rest)
      cases hbr : BlockRequest peerID num env.dispatchOk env.events with
      | none =>
        rw [workerAux_step_blocked peerID maxPeerHeight num chainH env rest hle
          (by simp [workerIter, hbr])] at hw
        exact absurd hw (by simp)
      | some res =>
        obtain ⟨blk, err⟩ := res
        cases err with
        | some e => exact absurd hbr (henv1.1 num blk e)
        | none =>
          have hit : workerIter peerID num chainH env =
              IterOut.next ((env.newHeight + 1) % W) env.newHeight := by
            simp [workerIter, hbr, henv1.2.1, henv1.2.2]
          rw [workerAux_step_next peerID maxPeerHeight num chainH env rest _ _ hle hit] at hw
          cases hrec : workerAux peerID maxPeerHeight ((env.newHeight + 1) % W)
              env.newHeight rest with
          | none => rw [hrec] at hw; exact absurd hw (by simp)
          | some out0 =>
            rw [hrec] at hw
            simp only [Option.map_some'] at hw
            have h0 := ih _ _ out0 (fun e2 he2 => henv e2 (List.mem_cons_of_mem env he2)) hrec
            rw [← Option.some.inj hw]
            exact ⟨h0.1, h0.2.1, h0.2.2⟩
    · rw [workerAux_exit peerID maxPeerHeight num chainH _ (Nat.not_le.mp hle)] at hw
      rw [← Option.some.inj hw]
      exact ⟨rfl, rfl, rfl⟩

/-- Witness for C8 at concrete inputs: an immediate exit with the nil
result when the cursor already exceeds the target, and a one-block
all-success run whose terminating output has nil result, no drop, no
scam. -/
theorem C8_success_run_witness :
    workerAux "p" 3 5 2 [] = some ⟨none, 2, false, false, [5]⟩ ∧
    ((⟨none, 5, false, false, [1, 6]⟩ : WOut).result = none ∧
      (⟨none, 5, false, false, [1, 6]⟩ : WOut).dropped = false ∧
      (⟨none, 5, false, false, [1, 6]⟩ : WOut).scammed = false) := by
  constructor
  · exact (C8_success_run "p" 3).1 5 2 [] (by decide)
  · refine (C8_success_run "p" 1).2.1 [⟨true, [BREvent.pending ⟨1, 0⟩ "p"], false, none, 5⟩]
      1 0 ⟨none, 5, false, false, [1, 6]⟩ ?_ (by decide)
    intro env henv
    have he : env = ⟨true, [BREvent.pending ⟨1, 0⟩ "p"], false, none, 5⟩ := by
      simpa using henv
    subst he
    refine ⟨?_, rfl, rfl⟩
    intro n blk e hcon
    by_cases hn : (1 : Nat) = n
    · subst hn
      simp [BlockRequest, blockRequestLoop] at hcon
    · simp [BlockRequest, blockRequestLoop, hn] at hcon

/-- Claim C9 (confirmed): every result of BlockRequest is either a
matched pending block returned with nil error, or a nil block with
one of errReqBlock, errGetBlockTimeout, errPeerDropped; and every
loop iteration of BlockRequestWorker is blocked, stops with
errCommAbnorm before touching ProcessBlock, or had its BlockRequest
return a non-nil block of the requested height from the session's
peer with nil error. -/
theorem C9_fetch_soundness :
    (∀ peerID height dispatchOk evs blk err,
      BlockRequest peerID height dispatchOk evs = some (blk, err) →
      (err = none ∧ ∃ b, blk = some b ∧ b.height = height ∧
          BREvent.pending b peerID ∈ evs) ∨
      (blk = none ∧ (err = some BRErr.reqBlock ∨ err = some BRErr.getBlockTimeout ∨
          err = some BRErr.peerDropped))) ∧
    (∀ peerID num chainHeight env,
      workerIter peerID num chainHeight env = IterOut.blocked ∨
      workerIter peerID num chainHeight env =
        IterOut.stop (some WErr.commAbnorm) true false ∨
      ∃ b, BlockRequest peerID num env.dispatchOk env.events = some (some b, none) ∧
        b.height = num ∧ BREvent.pending b peerID ∈ env.events) := by
  constructor
  · exact fun peerID height dispatchOk evs blk err h =>
      BlockRequest_classify peerID height dispatchOk evs blk err h
  · intro peerID num chainHeight env
    cases hbr : BlockRequest peerID num env.dispatchOk env.events with
    | none => exact Or.inl (by simp [workerIter, hbr])
    | some res =>
      obtain ⟨blk, err⟩ := res
      rcases BlockRequest_classify peerID num env.dispatchOk env.events blk err hbr with
        ⟨he, b, hb, hh, hm⟩ | ⟨hb, he⟩
      · subst he
        subst hb
        exact Or.inr (Or.inr ⟨b, rfl, hh, hm⟩)
      · refine Or.inr (Or.inl ?_)
        have hg : err = some BRErr.peerDropped ∨ err = some BRErr.getBlockTimeout ∨
            err = some BRErr.reqBlock := by tauto
        simp only [workerIter, hbr]
        rw [if_pos hg]

/-- Witness for C9 at a concrete input: a single matching pending
item classifies as the nil-error case carrying that block. -/
theorem C9_fetch_soundness_witness :
    ((none : Option BRErr) = none ∧ ∃ b, (some (⟨5, 7⟩ : Block) : Option Block) = some b ∧
        b.height = 5 ∧ BREvent.pending b "p" ∈ [BREvent.pending ⟨5, 7⟩ "p"]) ∨
    ((some (⟨5, 7⟩ : Block) : Option Block) = none ∧
      ((none : Option BRErr) = some BRErr.reqBlock ∨
        (none : Option BRErr) = some BRErr.getBlockTimeout ∨
        (none : Option BRErr) = some BRErr.peerDropped)) :=
  C9_fetch_soundness.1 "p" 5 true [BREvent.pending ⟨5, 7⟩ "p"] (some ⟨5, 7⟩) none
    (by decide)

/-- Claim C10 (confirmed): with the cursor driven to 0 by an orphan
and the block fetched at height 0 classified as an orphan too, the
uint64 decrement wraps to 2^64 - 1, the loop condition fails
(maxPeerHeight being below 2^64 - 1), and BlockRequestWorker returns
nil as if catch-up had succeeded, with no eviction and no
penalization. -/
theorem C10_orphan_wraparound (peerID : String) (m : Nat) (h1 : 1 ≤ m)
    (h2 : m ≤ W - 2) :
    BlockRequestWorker peerID m 0
        [⟨true, [BREvent.pending ⟨1, 0⟩ peerID], true, none, 0⟩,
          ⟨true, [BREvent.pending ⟨0, 0⟩ peerID], true, none, 0⟩] =
      some ⟨none, 0, false, false, [1, 0, W - 1]⟩ := by
  have e1 : workerIter peerID 1 0 ⟨true, [BREvent.pending ⟨1, 0⟩ peerID], true, none, 0⟩ =
      IterOut.next 0 0 := by
    simp [workerIter, BlockRequest, blockRequestLoop, decW, W]
  have e2 : workerIter peerID 0 0 ⟨true, [BREvent.pending ⟨0, 0⟩ peerID], true, none, 0⟩ =
      IterOut.next (W - 1) 0 := by
    simp [workerIter, BlockRequest, blockRequestLoop, decW, W]
  unfold BlockRequestWorker
  rw [show (0 + 1) % W = 1 from by decide]
  rw [workerAux_step_next peerID m 1 0 _ _ 0 0 h1 e1]
  rw [workerAux_step_next peerID m 0 0 _ _ (W - 1) 0 (Nat.zero_le m) e2]
  rw [workerAux_exit peerID m (W - 1) 0 [] (by unfold W at h2 ⊢; omega)]
  rfl

/-- Witness for C10 at a concrete input: maxPeerHeight 7. -/
theorem C10_orphan_wraparound_witness :
    BlockRequestWorker "p" 7 0
        [⟨true, [BREvent.pending ⟨1, 0⟩ "p"], true, none, 0⟩,
          ⟨true, [BREvent.pending ⟨0, 0⟩ "p"], true, none, 0⟩] =
      some ⟨none, 0, false, false, [1, 0, W - 1]⟩ :=
  C10_orphan_wraparound "p" 7 (by decide) (by decide)

end Netsync
